import Mathlib

/-!
Verification development for the rust-gpx-reader repository.

The definitions below are a shallow embedding of the Rust sources:

* `src/bitbuffer.rs`      — the `BitBuffer` bit-level reader;
* `src/gpx/mod.rs`        — the BCFZ decompressor and the BCFS extractor;
* `src/legacy/io_reader.rs` — the byte-level `IoReader` primitives;
* `src/legacy/gp_base.rs` — the version dispatcher;
* `src/legacy/gp3_reader.rs` — `read_duration` and `read_channel`.

Machine integers are modelled as `Nat` / `Int` with explicit two's
complement conversions; Rust integer arithmetic is modelled with the
release-profile (wrapping) semantics.  Rust `panic!` / failed `assert!`
are modelled as a distinguished outcome, never merged with the typed
`Result` error channel.  Loops whose termination is not structural are
modelled with an explicit fuel parameter; running out of fuel is a
distinguished outcome as well.
-/

/-! ### Two's complement helpers -/

/-- Interpret a `Nat` below `2^32` as an `i32` (two's complement). -/
def i32OfU32 (v : Nat) : Int :=
  if v < 2 ^ 31 then (v : Int) else (v : Int) - 2 ^ 32

/-- Rust `as u64` / `as usize` on an `i32` value: sign extension to 64 bits,
then reinterpretation as an unsigned number. -/
def i32AsUsize (i : Int) : Nat :=
  (i % (2 ^ 64 : Int)).toNat

/-- Rust `as u8` on an `i32` value: truncation to the low 8 bits. -/
def i32AsU8 (i : Int) : Nat :=
  (i % (256 : Int)).toNat

/-- Wrap an integer into the `i32` range (release-profile overflow). -/
def wrapI32 (i : Int) : Int :=
  (i + 2 ^ 31) % 2 ^ 32 - 2 ^ 31

/-! ### `src/bitbuffer.rs` — the `BitBuffer` reader

The Rust struct holds a current byte, a bit position in `0..=8`, and a
`Cursor<&[u8]>`.  `Cursor::read` on an exhausted cursor returns `Ok(0)`
and leaves the (zero-initialised) one-byte buffer untouched, so
`read_bit` never fails: past the end of the data it refills `byte` with
`0` and keeps producing `0` bits.  The embedding reproduces that. -/

structure BitBuffer where
  bitPosition : Nat
  byte : Nat
  pos : Nat
  data : List Nat
  deriving DecidableEq

/-- `BitBuffer::new`: `bit_position = 8`, `byte = 0`, cursor at start. -/
def BitBuffer.new (data : List Nat) : BitBuffer :=
  ⟨8, 0, 0, data⟩

/-- `BitBuffer::read_bit` (src/bitbuffer.rs:25-35).  When `bit_position`
is 8 the cursor is read: one byte if available, otherwise `Ok(0)` is
returned by `Cursor::read` and the buffer byte stays `0`.  The bit is
taken MSB-first. -/
def readBit (bb : BitBuffer) : Nat × BitBuffer :=
  let bb1 :=
    if bb.bitPosition = 8 then
      match bb.data[bb.pos]? with
      | some b => (⟨0, b, bb.pos + 1, bb.data⟩ : BitBuffer)
      | none => (⟨0, 0, bb.pos, bb.data⟩ : BitBuffer)
    else bb
  (bb1.byte / 2 ^ (7 - bb1.bitPosition) % 2,
   ⟨bb1.bitPosition + 1, bb1.byte, bb1.pos, bb1.data⟩)

/-- `BitBuffer::read_bits` (src/bitbuffer.rs:38-46): MSB-first packing,
`word |= bit << (count - 1 - idx)` for `idx in 0..count`.  The Rust
`assert!(count <= 64)` is omitted: every call site in the repository
uses a count of at most 15. -/
def readBits (count : Nat) (bb : BitBuffer) : Nat × BitBuffer :=
  (List.range count).foldl
    (fun p idx =>
      let (bit, bb') := readBit p.2
      (p.1 ||| (bit <<< (count - 1 - idx)), bb'))
    (0, bb)

/-- `BitBuffer::read_bits_reversed` (src/bitbuffer.rs:48-55): LSB-first
packing, `word |= bit << idx` for `idx in 0..count`. -/
def readBitsReversed (count : Nat) (bb : BitBuffer) : Nat × BitBuffer :=
  (List.range count).foldl
    (fun p idx =>
      let (bit, bb') := readBit p.2
      (p.1 ||| (bit <<< idx), bb'))
    (0, bb)

/-- The `Read` impl for `BitBuffer` (src/bitbuffer.rs:9-16): each output
byte is `read_bits(8)`. -/
def readBytesBits (count : Nat) (bb : BitBuffer) : List Nat × BitBuffer :=
  (List.range count).foldl
    (fun p _ =>
      let (w, bb') := readBits 8 p.2
      (p.1 ++ [w], bb'))
    ([], bb)

/-- Observer used for the bit-order laws: the list produced by `n`
successive `read_bit` calls. -/
def readBitList (count : Nat) (bb : BitBuffer) : List Nat × BitBuffer :=
  (List.range count).foldl
    (fun p _ =>
      let (bit, bb') := readBit p.2
      (p.1 ++ [bit], bb'))
    ([], bb)

/-- C9: BitReader bit-order laws.  On `[0xCA, 0xF0]` sixteen successive
`read_bit` calls return `1,1,0,0,1,0,1,0,1,1,1,1,0,0,0,0`; starting
fresh, `read_bits(8)` returns 202, `read_bits(7)` returns 101,
`read_bits_reversed(8)` returns 83 and `read_bits_reversed(7)`
returns 83. -/
theorem bitbuffer_bit_order_laws :
    (readBitList 16 (BitBuffer.new [0xCA, 0xF0])).1 =
      [1, 1, 0, 0, 1, 0, 1, 0, 1, 1, 1, 1, 0, 0, 0, 0] ∧
    (readBits 8 (BitBuffer.new [0xCA, 0xF0])).1 = 202 ∧
    (readBits 7 (BitBuffer.new [0xCA, 0xF0])).1 = 101 ∧
    (readBitsReversed 8 (BitBuffer.new [0xCA, 0xF0])).1 = 83 ∧
    (readBitsReversed 7 (BitBuffer.new [0xCA, 0xF0])).1 = 83 := by
  decide

/-! ### `src/gpx/mod.rs` — the BCFZ decompressor

`decompress_bcfz` first reads a 32-bit little-endian length through the
`Read` impl of `BitBuffer` (that is, bit by bit), casts it
`as usize` (sign extension), then loops over marker-prefixed chunks
while `decompressed_data.len() < expected`.  Since `read_bit` cannot
fail (see above), the only non-`Ok` outcomes are a failed `assert!`
(a panic) and non-termination; the `Result` error channel of the Rust
function is unreachable.  The loop is modelled with fuel. -/

/-- Read a 32-bit little-endian word through the `Read` impl of
`BitBuffer` (four `read_bits(8)` bytes), as `byteorder::read_i32`
does. -/
def readI32LEbits (bb : BitBuffer) : Nat × BitBuffer :=
  let r := readBytesBits 4 bb
  (r.1.getD 0 0 + 256 * r.1.getD 1 0 + 65536 * r.1.getD 2 0 + 16777216 * r.1.getD 3 0, r.2)

/-- `i32 as usize` on the raw 32-bit pattern `v`. -/
def u32AsUsize (v : Nat) : Nat :=
  if v < 2 ^ 31 then v else v + (2 ^ 64 - 2 ^ 32)

/-- `read_uncompressed_chunk` (src/gpx/mod.rs:60-66): a 2-bit reversed
count, then that many bytes through the `Read` impl, appended to the
output.  `read_exact` on a `BitBuffer` cannot fail. -/
def readUncompressedChunk (bb : BitBuffer) (out : List Nat) :
    BitBuffer × List Nat :=
  let r := readBitsReversed 2 bb
  let b := readBytesBits r.1 r.2
  (b.2, out ++ b.1)

/-- `read_compressed_chunk` (src/gpx/mod.rs:69-79): a 4-bit MSB-first
word size, then reversed `offset` and `len`.  The Rust code then runs
`assert!(decompressed_data.len() >= offset)` — a panic, modelled as
`none` — and otherwise appends `min len offset` bytes copied from
`output[output.len - offset ..]`. -/
def readCompressedChunk (bb : BitBuffer) (out : List Nat) :
    Option (BitBuffer × List Nat) :=
  let w := readBits 4 bb
  let o := readBitsReversed w.1 w.2
  let l := readBitsReversed w.1 o.2
  if out.length < o.1 then
    none
  else
    let sourcePosition := out.length - o.1
    let toRead := min l.1 o.1
    some (l.2, out ++ (out.drop sourcePosition).take toRead)

/-- Outcome of a `decompress_bcfz` run: a returned buffer or a panic.
Fuel exhaustion of the model is the `none` of the surrounding
`Option`. -/
inductive BcfzResult where
  | ok (out : List Nat)
  | panicked
  deriving DecidableEq

/-- The chunk loop of `decompress_bcfz` (src/gpx/mod.rs:81-88), with
fuel. -/
def bcfzLoop : Nat → BitBuffer → List Nat → Nat → Option BcfzResult
  | 0, _, _, _ => none
  | fuel + 1, bb, out, expected =>
    if out.length < expected then
      let r := readBit bb
      if r.1 = 0 then
        let u := readUncompressedChunk r.2 out
        bcfzLoop fuel u.1 u.2 expected
      else
        match readCompressedChunk r.2 out with
        | none => some BcfzResult.panicked
        | some (bb2, out2) => bcfzLoop fuel bb2 out2 expected
    else
      some (BcfzResult.ok out)

/-- `decompress_bcfz` (src/gpx/mod.rs:52-93), with fuel for the chunk
loop. -/
def decompressBcfzFuel (fuel : Nat) (data : List Nat) : Option BcfzResult :=
  let r := readI32LEbits (BitBuffer.new data)
  bcfzLoop fuel r.2 [] (u32AsUsize r.1)

/-- The declared decompressed length of a BCFZ stream: the header word
read exactly as `decompress_bcfz` reads it. -/
def bcfzExpectedLen (data : List Nat) : Nat :=
  u32AsUsize (readI32LEbits (BitBuffer.new data)).1

/-- The chunk loop can only return `ok` once the output has reached the
expected length. -/
theorem bcfzLoop_ok_le (fuel : Nat) :
    ∀ bb out expected res, bcfzLoop fuel bb out expected = some (BcfzResult.ok res) →
      expected ≤ res.length := by
  induction fuel with
  | zero => intro bb out expected res h; simp [bcfzLoop] at h
  | succ n ih =>
    intro bb out expected res h
    rw [bcfzLoop] at h
    by_cases hlt : out.length < expected
    · rw [if_pos hlt] at h
      by_cases hbit : (readBit bb).1 = 0
      · rw [if_pos hbit] at h
        exact ih _ _ _ _ h
      · rw [if_neg hbit] at h
        rcases hcc : readCompressedChunk (readBit bb).2 out with _ | ⟨bb2, out2⟩
        · rw [hcc] at h; simp at h
        · rw [hcc] at h; exact ih _ _ _ _ h
    · rw [if_neg hlt] at h
      simp only [Option.some.injEq, BcfzResult.ok.injEq] at h
      rw [← h]
      omega

/-- C1 (amended): for every run of `decompress_bcfz` that returns a
buffer, the buffer's length is at least the declared 32-bit
little-endian decompressed length — the loop exits at the first chunk
boundary at which `output.len >= declared_length`, which may be strictly
beyond it. -/
theorem decompress_bcfz_length_ge_declared (fuel : Nat) (data : List Nat)
    (out : List Nat)
    (h : decompressBcfzFuel fuel data = some (BcfzResult.ok out)) :
    bcfzExpectedLen data ≤ out.length := by
  exact bcfzLoop_ok_le fuel _ _ _ _ h

/-- C1 counterexample: a stream with declared length 1 whose single
literal chunk carries two bytes is accepted, and the returned buffer has
length 2, not the declared 1. -/
theorem decompress_bcfz_length_can_exceed_declared :
    decompressBcfzFuel 2 [1, 0, 0, 0, 0x20, 0, 0] =
      some (BcfzResult.ok [0, 0]) ∧
    bcfzExpectedLen [1, 0, 0, 0, 0x20, 0, 0] = 1 ∧
    ([0, 0] : List Nat).length ≠ 1 := by
  refine ⟨by decide, by decide, by decide⟩

/-- Witness for the amended C1 law at a concrete accepted stream. -/
theorem decompress_bcfz_length_ge_declared_witness :
    decompressBcfzFuel 1 [0, 0, 0, 0] = some (BcfzResult.ok []) ∧
    bcfzExpectedLen [0, 0, 0, 0] ≤ ([] : List Nat).length :=
  ⟨by decide, decompress_bcfz_length_ge_declared 1 [0, 0, 0, 0] [] (by decide)⟩

/-! ### Truncated BCFZ streams (C2)

`read_bit` never fails: once the cursor is exhausted it refills `byte`
with `0` and keeps returning `0` bits.  Every chunk read past the end
of the data is then a literal chunk with a zero 2-bit count, which
appends nothing, so the `decompress_bcfz` loop makes no progress and
never terminates.  The predicate below captures a `BitBuffer` whose
remaining bit stream is identically zero. -/

/-- The cursor is exhausted and the pending bits of the current byte are
all zero: every future `read_bit` returns 0. -/
def exhaustedZero (bb : BitBuffer) : Prop :=
  bb.data.length ≤ bb.pos ∧ bb.bitPosition ≤ 8 ∧
    bb.byte % 2 ^ (8 - bb.bitPosition) = 0

instance (bb : BitBuffer) : Decidable (exhaustedZero bb) := by
  unfold exhaustedZero; infer_instance

theorem readBit_exhaustedZero (bb : BitBuffer) (h : exhaustedZero bb) :
    (readBit bb).1 = 0 ∧ exhaustedZero (readBit bb).2 := by
  obtain ⟨hpos, hle, hmod⟩ := h
  by_cases h8 : bb.bitPosition = 8
  · have hnone : bb.data[bb.pos]? = none := by
      rw [List.getElem?_eq_none_iff]; exact hpos
    simp [readBit, h8, hnone, exhaustedZero, hpos]
  · have hlt : bb.bitPosition < 8 := lt_of_le_of_ne hle h8
    have hdvd : 2 ^ (8 - bb.bitPosition) ∣ bb.byte := Nat.dvd_of_mod_eq_zero hmod
    obtain ⟨k, hk⟩ := hdvd
    have h87 : 8 - bb.bitPosition = (7 - bb.bitPosition) + 1 := by omega
    constructor
    · show (if bb.bitPosition = 8 then _ else bb).byte / _ % 2 = 0
      rw [if_neg h8, hk, h87, pow_succ]
      have hdiv : 2 ^ (7 - bb.bitPosition) * 2 * k / 2 ^ (7 - bb.bitPosition)
          = 2 * k := by
        rw [Nat.mul_assoc]
        exact Nat.mul_div_cancel_left _ (Nat.pos_pow_of_pos _ (by norm_num))
      rw [hdiv, Nat.mul_mod_right]
    · have hgoal : (readBit bb).2 =
          ⟨bb.bitPosition + 1, bb.byte, bb.pos, bb.data⟩ := by
        simp [readBit, if_neg h8]
      rw [hgoal]
      have hdvd2 : (2 : Nat) ^ (8 - (bb.bitPosition + 1)) ∣ bb.byte :=
        dvd_trans (pow_dvd_pow 2 (by omega)) ⟨k, hk⟩
      obtain ⟨m, hm⟩ := hdvd2
      exact ⟨hpos, by simp; omega, by simp [hm, Nat.mul_mod_right]⟩

theorem readBitsReversed_succ (n : Nat) (bb : BitBuffer) :
    readBitsReversed (n + 1) bb =
      ((readBitsReversed n bb).1 |||
        ((readBit (readBitsReversed n bb).2).1 <<< n),
       (readBit (readBitsReversed n bb).2).2) := by
  rw [readBitsReversed, List.range_succ, List.foldl_append]
  rfl

theorem readBitsReversed_exhaustedZero (n : Nat) (bb : BitBuffer)
    (h : exhaustedZero bb) :
    (readBitsReversed n bb).1 = 0 ∧
      exhaustedZero (readBitsReversed n bb).2 := by
  induction n with
  | zero => exact ⟨rfl, h⟩
  | succ m ih =>
    have hb := readBit_exhaustedZero (readBitsReversed m bb).2 ih.2
    rw [readBitsReversed_succ]
    exact ⟨by simp [ih.1, hb.1], hb.2⟩

theorem readUncompressedChunk_exhaustedZero (bb : BitBuffer)
    (out : List Nat) (h : exhaustedZero bb) :
    ∃ bb', readUncompressedChunk bb out = (bb', out) ∧ exhaustedZero bb' := by
  have hr := readBitsReversed_exhaustedZero 2 bb h
  refine ⟨(readBitsReversed 2 bb).2, ?_, hr.2⟩
  show (let r := readBitsReversed 2 bb
        let b := readBytesBits r.1 r.2
        (b.2, out ++ b.1)) = _
  rw [show (readBitsReversed 2 bb) =
        ((readBitsReversed 2 bb).1, (readBitsReversed 2 bb).2) from rfl,
      hr.1]
  simp [readBytesBits]

theorem bcfzLoop_exhaustedZero (fuel : Nat) :
    ∀ bb out expected, exhaustedZero bb → out.length < expected →
      bcfzLoop fuel bb out expected = none := by
  induction fuel with
  | zero => intro bb out expected _ _; rfl
  | succ n ih =>
    intro bb out expected hE hlt
    have hb := readBit_exhaustedZero bb hE
    obtain ⟨bb', hu, hE'⟩ :=
      readUncompressedChunk_exhaustedZero (readBit bb).2 out hb.2
    rw [bcfzLoop, if_pos hlt, if_pos hb.1, hu]
    exact ih bb' out expected hE' hlt

/-- C2: on the truncated stream whose header declares one output byte
but whose body is empty, `decompress_bcfz` never terminates: for every
fuel bound the chunk loop is still running.  In the Rust code
`Cursor::read` returns `Ok(0)` at end of data, so `read_bit` never
fails with `UnexpectedEof`; past the end it produces `0` bits forever,
each chunk is a zero-length literal, and the loop makes no progress. -/
theorem decompress_bcfz_truncated_diverges (fuel : Nat) :
    decompressBcfzFuel fuel [1, 0, 0, 0] = none := by
  have h0 : decompressBcfzFuel fuel [1, 0, 0, 0] =
      bcfzLoop fuel ⟨8, 0, 4, [1, 0, 0, 0]⟩ [] 1 := rfl
  rw [h0]
  exact bcfzLoop_exhaustedZero fuel _ [] 1 (by decide) (by decide)

/-- C3 counterexample: a back-reference whose offset (1) exceeds the
current output length (0) makes `decompress_bcfz` panic on its
`assert!`, not return a typed `FormatError`; and a back-reference with
offset 0 is not an error at all — the stream is accepted. -/
theorem backref_bad_offset_not_format_error :
    decompressBcfzFuel 2 [1, 0, 0, 0, 0x8C] = some BcfzResult.panicked ∧
    decompressBcfzFuel 3 [1, 0, 0, 0, 0x82, 0xAB] =
      some (BcfzResult.ok [0xAB]) := by
  refine ⟨by decide, by decide⟩

/-- C3 (amended): in `read_compressed_chunk`, a decoded offset greater
than the current output length aborts through the `assert!` panic
(modelled `none`), and a decoded offset of 0 is accepted, appending no
bytes. -/
theorem backref_offset_zero_and_overflow (bb bb1 bb2 bb3 : BitBuffer)
    (out : List Nat) (ws off len : Nat)
    (h1 : readBits 4 bb = (ws, bb1))
    (h2 : readBitsReversed ws bb1 = (off, bb2))
    (h3 : readBitsReversed ws bb2 = (len, bb3)) :
    (out.length < off → readCompressedChunk bb out = none) ∧
    (off = 0 → readCompressedChunk bb out = some (bb3, out)) := by
  constructor
  · intro hlt
    simp only [readCompressedChunk, h1, h2, h3]
    rw [if_pos hlt]
  · intro hz
    simp only [readCompressedChunk, h1, h2, h3, hz]
    rw [if_neg (by omega)]
    simp

/-- Witness for the amended C3 law: its two branches applied at two
concrete chunks. -/
theorem backref_offset_zero_and_overflow_witness :
    readCompressedChunk (BitBuffer.new [0x18]) [] = none ∧
    readCompressedChunk (BitBuffer.new [0x00]) [5] =
      some (⟨4, 0, 1, [0x00]⟩, [5]) := by
  constructor
  · exact (backref_offset_zero_and_overflow (BitBuffer.new [0x18])
      ⟨4, 0x18, 1, [0x18]⟩ ⟨5, 0x18, 1, [0x18]⟩ ⟨6, 0x18, 1, [0x18]⟩
      [] 1 1 0 (by decide) (by decide) (by decide)).1 (by decide)
  · exact (backref_offset_zero_and_overflow (BitBuffer.new [0x00])
      ⟨4, 0, 1, [0x00]⟩ ⟨4, 0, 1, [0x00]⟩ ⟨4, 0, 1, [0x00]⟩
      [5] 0 0 0 (by decide) (by decide) (by decide)).2 rfl

/-- C4: a back-reference with `0 < offset ≤ output.len` appends exactly
`min len offset` bytes, copied in order from output position
`output.len − offset` onward; the copied bytes are taken from the
pre-existing output (the slice is materialised before the append), so
the copy never overlaps the appended tail. -/
theorem backref_copies_min_len_offset (bb bb1 bb2 bb3 : BitBuffer)
    (out : List Nat) (ws off len : Nat)
    (h1 : readBits 4 bb = (ws, bb1))
    (h2 : readBitsReversed ws bb1 = (off, bb2))
    (h3 : readBitsReversed ws bb2 = (len, bb3))
    (hpos : 0 < off) (hle : off ≤ out.length) :
    readCompressedChunk bb out =
      some (bb3, out ++ (out.drop (out.length - off)).take (min len off)) ∧
    (out ++ (out.drop (out.length - off)).take (min len off)).length =
      out.length + min len off := by
  constructor
  · simp only [readCompressedChunk, h1, h2, h3]
    rw [if_neg (by omega)]
  · simp [List.length_take, List.length_drop]
    omega

/-- Witness for the C4 copy law at a concrete chunk. -/
theorem backref_copies_min_len_offset_witness :
    readCompressedChunk (BitBuffer.new [0x2B]) [7] =
      some (⟨8, 0x2B, 1, [0x2B]⟩, [7, 7]) := by
  have h := backref_copies_min_len_offset (BitBuffer.new [0x2B])
    ⟨4, 0x2B, 1, [0x2B]⟩ ⟨6, 0x2B, 1, [0x2B]⟩ ⟨8, 0x2B, 1, [0x2B]⟩
    [7] 2 1 3 (by decide) (by decide) (by decide) (by decide) (by decide)
  exact h.1.trans (by decide)

/-! ### `src/gpx/mod.rs` — the BCFS extractor

`decompress_bcfs` walks candidate sectors with a `Cursor` over the byte
slice.  Reads of a 32-bit word or of a byte block fail with an I/O
error when they run past the end of the data.  Inside a directory
sector the loop variable `offset` is reassigned to each block's
position, so after the entry the walk resumes from the sector after the
last block read.  Both the outer sector walk and the per-entry block
walk are modelled with a shared fuel parameter. -/

/-- The byte slice handed to `decompress_bcfs`, as seen through its
`Cursor`: a length and random access to the byte at each position
(positions at or beyond `len` are never read by the model, every read
being guarded by a bounds check first). -/
structure ByteSeq where
  len : Nat
  get : Nat → Nat

/-- `Cursor` `read_exact` of `n` bytes at position `p`: fails (I/O
error) when fewer than `n` bytes remain, otherwise yields the bytes at
positions `p, p+1, …, p+n-1`. -/
def readExactAt (d : ByteSeq) (p n : Nat) : Option (List Nat) :=
  if p + n ≤ d.len then some ((List.range n).map fun i => d.get (p + i))
  else none

/-- `byteorder::read_i32::<LittleEndian>` at position `p`. -/
def readI32At (d : ByteSeq) (p : Nat) : Option Int :=
  match readExactAt d p 4 with
  | none => none
  | some bs =>
    some (i32OfU32 (bs.getD 0 0 + 256 * bs.getD 1 0 + 65536 * bs.getD 2 0 +
      16777216 * bs.getD 3 0))

/-- The `File` struct of src/gpx/mod.rs:16-19.  The name is kept as the
raw 127 bytes read from the sector; the UTF-8-lossy decoding and
trailing-NUL trim applied by the Rust code are not modelled (no claim
inspects the decoded name). -/
structure BcfsFile where
  fileName : List Nat
  fileData : List Nat
  deriving DecidableEq

/-- Outcome of a (fuelled) BCFS computation. -/
inductive BcfsRes (α : Type) where
  | ok (a : α)
  | ioErr
  | nofuel
  deriving DecidableEq

/-- The block-table loop of `decompress_bcfs` (src/gpx/mod.rs:116-128):
read 32-bit sector indices at `index_of_block + 4*block_count` until a
zero word; for each non-zero index seek to `block * 0x1000` (with the
`as u64` sign extension and release-profile wrapping multiply) and
append 0x1000 bytes.  Returns the accumulated bytes and the final value
of the (reassigned) `offset` variable. -/
def bcfsBlockLoop : Nat → ByteSeq → Nat → Nat → List Nat → Nat →
    BcfsRes (List Nat × Nat)
  | 0, _, _, _, _, _ => BcfsRes.nofuel
  | fuel + 1, data, indexOfBlock, blockCount, fileData, offset =>
    match readI32At data (indexOfBlock + 4 * blockCount) with
    | none => BcfsRes.ioErr
    | some block =>
      if block = 0 then BcfsRes.ok (fileData, offset)
      else
        let offset1 := i32AsUsize block * 0x1000 % 2 ^ 64
        match readExactAt data offset1 0x1000 with
        | none => BcfsRes.ioErr
        | some buf =>
          bcfsBlockLoop fuel data indexOfBlock (blockCount + 1)
            (fileData ++ buf) offset1

/-- The body of the `tag == 2` branch of `decompress_bcfs`
(src/gpx/mod.rs:108-143): walk the block table, read the declared file
size at `offset + 0x8C`, and emit the file (name bytes at `offset + 4`,
data truncated to the declared size) exactly when the declared size is
at most the accumulated data; otherwise skip silently.  Returns the
optional emitted file and the new value of `offset`. -/
def processDirEntry (fuel : Nat) (data : ByteSeq) (offset : Nat) :
    BcfsRes (Option BcfsFile × Nat) :=
  match bcfsBlockLoop fuel data (offset + 0x94) 0 [] offset with
  | BcfsRes.nofuel => BcfsRes.nofuel
  | BcfsRes.ioErr => BcfsRes.ioErr
  | BcfsRes.ok (fileData, offset1) =>
    match readI32At data (offset + 0x8C) with
    | none => BcfsRes.ioErr
    | some fsz =>
      if i32AsUsize fsz ≤ fileData.length then
        match readExactAt data (offset + 4) 127 with
        | none => BcfsRes.ioErr
        | some nameBuf =>
          BcfsRes.ok (some ⟨nameBuf, fileData.take (i32AsUsize fsz)⟩, offset1)
      else BcfsRes.ok (none, offset1)

/-- The sector walk of `decompress_bcfs` (src/gpx/mod.rs:102-145):
`offset += 0x1000`; stop when `offset + 3 >= data.len`; read the 32-bit
tag; process the sector when the tag is 2, otherwise move on. -/
def bcfsLoop : Nat → ByteSeq → Nat → List BcfsFile → BcfsRes (List BcfsFile)
  | 0, _, _, _ => BcfsRes.nofuel
  | fuel + 1, data, offset, files =>
    let offset1 := offset + 0x1000
    if data.len ≤ offset1 + 3 then BcfsRes.ok files
    else
      match readI32At data offset1 with
      | none => BcfsRes.ioErr
      | some tag =>
        if tag = 2 then
          match processDirEntry fuel data offset1 with
          | BcfsRes.nofuel => BcfsRes.nofuel
          | BcfsRes.ioErr => BcfsRes.ioErr
          | BcfsRes.ok (fopt, offset2) =>
            bcfsLoop fuel data offset2 (files ++ fopt.toList)
        else bcfsLoop fuel data offset1 files

/-- `decompress_bcfs` (src/gpx/mod.rs:95-147), with fuel. -/
def decompressBcfsFuel (fuel : Nat) (data : ByteSeq) :
    BcfsRes (List BcfsFile) :=
  bcfsLoop fuel data 0 []

/-- Observation twin of `bcfsLoop`: identical control flow, but also
records the list of offsets at which a sector tag is read (inspected
sectors). -/
def bcfsLoopTraced : Nat → ByteSeq → Nat → List BcfsFile → List Nat →
    BcfsRes (List BcfsFile × List Nat)
  | 0, _, _, _, _ => BcfsRes.nofuel
  | fuel + 1, data, offset, files, trace =>
    let offset1 := offset + 0x1000
    if data.len ≤ offset1 + 3 then BcfsRes.ok (files, trace)
    else
      match readI32At data offset1 with
      | none => BcfsRes.ioErr
      | some tag =>
        if tag = 2 then
          match processDirEntry fuel data offset1 with
          | BcfsRes.nofuel => BcfsRes.nofuel
          | BcfsRes.ioErr => BcfsRes.ioErr
          | BcfsRes.ok (fopt, offset2) =>
            bcfsLoopTraced fuel data offset2 (files ++ fopt.toList)
              (trace ++ [offset1])
        else bcfsLoopTraced fuel data offset1 files (trace ++ [offset1])

theorem readExactAt_length (d : ByteSeq) (p n : Nat) (bs : List Nat)
    (h : readExactAt d p n = some bs) : bs.length = n := by
  unfold readExactAt at h
  by_cases hle : p + n ≤ d.len
  · rw [if_pos hle] at h
    simp only [Option.some.injEq] at h
    rw [← h]
    simp
  · rw [if_neg hle] at h; exact absurd h (by simp)

theorem bcfsBlockLoop_length_mod (fuel : Nat) :
    ∀ (data : ByteSeq) (idx bc : Nat) (fd : List Nat) (off : Nat)
      (fd2 : List Nat) (off2 : Nat),
      bcfsBlockLoop fuel data idx bc fd off = BcfsRes.ok (fd2, off2) →
      fd2.length % 0x1000 = fd.length % 0x1000 := by
  induction fuel with
  | zero => intro data idx bc fd off fd2 off2 h; simp [bcfsBlockLoop] at h
  | succ n ih =>
    intro data idx bc fd off fd2 off2 h
    rw [bcfsBlockLoop] at h
    rcases hr : readI32At data (idx + 4 * bc) with _ | block
    · rw [hr] at h; simp at h
    · rw [hr] at h
      simp only [] at h
      by_cases hz : block = 0
      · rw [if_pos hz] at h
        simp only [BcfsRes.ok.injEq, Prod.mk.injEq] at h
        rw [h.1]
      · rw [if_neg hz] at h
        rcases hb : readExactAt data (i32AsUsize block * 0x1000 % 2 ^ 64) 0x1000
            with _ | buf
        · rw [hb] at h; simp at h
        · rw [hb] at h
          simp only [] at h
          have hlen := readExactAt_length _ _ _ _ hb
          have := ih _ _ _ _ _ _ _ h
          rw [this]
          simp [hlen, Nat.add_mod_right]

theorem processDirEntry_eq (fuel : Nat) (data : ByteSeq)
    (offset : Nat) (fd : List Nat) (off2 : Nat) (fsz : Int)
    (nameBuf : List Nat)
    (hb : bcfsBlockLoop fuel data (offset + 0x94) 0 [] offset =
      BcfsRes.ok (fd, off2))
    (hs : readI32At data (offset + 0x8C) = some fsz)
    (hn : readExactAt data (offset + 4) 127 = some nameBuf) :
    processDirEntry fuel data offset =
      BcfsRes.ok ((if i32AsUsize fsz ≤ fd.length then
        some ⟨nameBuf, fd.take (i32AsUsize fsz)⟩ else none), off2) := by
  unfold processDirEntry
  rw [hb]
  simp only []
  rw [hs]
  simp only []
  by_cases hle : i32AsUsize fsz ≤ fd.length
  · rw [if_pos hle, hn, if_pos hle]
  · rw [if_neg hle, if_neg hle]

theorem bcfsLoopTraced_step_notdir (fuel : Nat) (data : ByteSeq)
    (offset : Nat) (files : List BcfsFile) (trace : List Nat) (tag : Int)
    (hin : ¬ data.len ≤ offset + 0x1000 + 3)
    (htag : readI32At data (offset + 0x1000) = some tag) (hne : tag ≠ 2) :
    bcfsLoopTraced (fuel + 1) data offset files trace =
      bcfsLoopTraced fuel data (offset + 0x1000) files
        (trace ++ [offset + 0x1000]) := by
  rw [bcfsLoopTraced]
  simp only [htag, if_neg hin, if_neg hne]

theorem bcfsLoopTraced_step_dir (fuel : Nat) (data : ByteSeq)
    (offset : Nat) (files : List BcfsFile) (trace : List Nat)
    (fopt : Option BcfsFile) (offset2 : Nat)
    (hin : ¬ data.len ≤ offset + 0x1000 + 3)
    (htag : readI32At data (offset + 0x1000) = some 2)
    (hpd : processDirEntry fuel data (offset + 0x1000) =
      BcfsRes.ok (fopt, offset2)) :
    bcfsLoopTraced (fuel + 1) data offset files trace =
      bcfsLoopTraced fuel data offset2 (files ++ fopt.toList)
        (trace ++ [offset + 0x1000]) := by
  rw [bcfsLoopTraced]
  simp only [htag, if_neg hin, if_pos (show (2 : Int) = 2 from rfl), hpd, if_true]

def bcfsSkipImage : ByteSeq :=
  ⟨0x3000, fun i =>
    if i = 0x1000 then 2 else if i = 0x1094 then 2 else
    if i = 0x2000 then 2 else 0⟩



theorem bcfsBlockLoop_step_nonzero (fuel : Nat) (data : ByteSeq)
    (idx bc : Nat) (fd : List Nat) (off : Nat) (block : Int) (buf : List Nat)
    (hr : readI32At data (idx + 4 * bc) = some block) (hnz : ¬ block = 0)
    (hb : readExactAt data (i32AsUsize block * 0x1000 % 2 ^ 64) 0x1000 =
      some buf) :
    bcfsBlockLoop (fuel + 1) data idx bc fd off =
      bcfsBlockLoop fuel data idx (bc + 1) (fd ++ buf)
        (i32AsUsize block * 0x1000 % 2 ^ 64) := by
  rw [bcfsBlockLoop, hr]
  simp only []
  rw [if_neg hnz, hb]

theorem bcfsBlockLoop_step_zero (fuel : Nat) (data : ByteSeq)
    (idx bc : Nat) (fd : List Nat) (off : Nat)
    (hr : readI32At data (idx + 4 * bc) = some 0) :
    bcfsBlockLoop (fuel + 1) data idx bc fd off = BcfsRes.ok (fd, off) := by
  rw [bcfsBlockLoop, hr]
  rfl

set_option maxRecDepth 10000 in
/-- C5 counterexample: in the image `bcfsSkipImage` (length 0x3000) the
directory sector at 0x1000 has a single block pointing at sector 2, so
after processing it the walk resumes from offset 0x2000 and the next
candidate is 0x3000, past the end: the multiple 0x2000 — in range and
itself bearing tag 2 — is never inspected. -/
theorem bcfs_walk_skips_sector :
    bcfsLoopTraced 5 bcfsSkipImage 0 [] [] =
      BcfsRes.ok ([⟨List.replicate 127 0, []⟩], [0x1000]) ∧
    0x2000 + 4 ≤ bcfsSkipImage.len ∧
    readI32At bcfsSkipImage 0x2000 = some 2 ∧
    (0x2000 : Nat) ∉ ([0x1000] : List Nat) := by
  have hsec : readExactAt bcfsSkipImage (i32AsUsize 2 * 0x1000 % 2 ^ 64) 0x1000 =
      some ((List.range 0x1000).map fun i => bcfsSkipImage.get (0x2000 + i)) := by
    rw [show (i32AsUsize 2 * 0x1000 % 2 ^ 64 : Nat) = 0x2000 by decide]
    unfold readExactAt
    rw [if_pos (by decide)]
  have h1 : bcfsBlockLoop 4 bcfsSkipImage (0x1000 + 0x94) 0 [] 0x1000 =
      BcfsRes.ok ((List.range 0x1000).map fun i => bcfsSkipImage.get (0x2000 + i),
        i32AsUsize 2 * 0x1000 % 2 ^ 64) := by
    rw [show (4 : Nat) = 3 + 1 from rfl]
    rw [bcfsBlockLoop_step_nonzero 3 bcfsSkipImage (0x1000 + 0x94) 0 []
      0x1000 2 ((List.range 0x1000).map fun i => bcfsSkipImage.get (0x2000 + i))
      (by decide) (by decide) hsec]
    rw [show (3 : Nat) = 2 + 1 from rfl]
    rw [bcfsBlockLoop_step_zero 2 bcfsSkipImage (0x1000 + 0x94) (0 + 1)
      ([] ++ ((List.range 0x1000).map fun i => bcfsSkipImage.get (0x2000 + i)))
      (i32AsUsize 2 * 0x1000 % 2 ^ 64) (by decide)]
    rw [List.nil_append]
  have h2 : processDirEntry 4 bcfsSkipImage 0x1000 =
      BcfsRes.ok (some ⟨List.replicate 127 0, []⟩, 0x2000) := by
    have hn : readExactAt bcfsSkipImage (0x1000 + 4) 127 =
        some (List.replicate 127 0) := by
      unfold readExactAt
      rw [if_pos (by decide)]
      exact congrArg some (by decide)
    have he := processDirEntry_eq 4 bcfsSkipImage 0x1000
      ((List.range 0x1000).map fun i => bcfsSkipImage.get (0x2000 + i))
      (i32AsUsize 2 * 0x1000 % 2 ^ 64) 0 (List.replicate 127 0) h1
      (by decide) hn
    rw [he]
    rw [show i32AsUsize 0 = 0 by decide]
    rw [if_pos (by simp)]
    rw [List.take_zero]
    rw [show (i32AsUsize 2 * 0x1000 % 2 ^ 64 : Nat) = 0x2000 by decide]
  refine ⟨?_, by decide, by decide, by decide⟩
  rw [show (5 : Nat) = 4 + 1 from rfl]
  rw [bcfsLoopTraced_step_dir 4 bcfsSkipImage 0 [] []
    (some ⟨List.replicate 127 0, []⟩) 0x2000 (by decide) (by decide) h2]
  rw [bcfsLoopTraced]
  rw [if_pos (by decide)]
  simp

/-- C5 (amended): the sector walk advances `offset` in steps of 0x1000
starting at 0x1000; a candidate sector whose 32-bit tag is not 2 is
skipped to the next sector.  But after a directory sector (tag 2) is
processed, the loop variable has been reassigned to the position of the
last block read for that entry, so the walk resumes from the sector
after that block and multiples of 0x1000 in between are not
inspected. -/
theorem bcfs_walk_step (fuel : Nat) (data : ByteSeq) (offset : Nat)
    (files : List BcfsFile) (trace : List Nat) (tag : Int)
    (hin : ¬ data.len ≤ offset + 0x1000 + 3)
    (htag : readI32At data (offset + 0x1000) = some tag) :
    (tag ≠ 2 → bcfsLoopTraced (fuel + 1) data offset files trace =
      bcfsLoopTraced fuel data (offset + 0x1000) files
        (trace ++ [offset + 0x1000])) ∧
    (∀ fopt offset2, tag = 2 →
      processDirEntry fuel data (offset + 0x1000) = BcfsRes.ok (fopt, offset2) →
      bcfsLoopTraced (fuel + 1) data offset files trace =
        bcfsLoopTraced fuel data offset2 (files ++ fopt.toList)
          (trace ++ [offset + 0x1000])) := by
  constructor
  · intro hne
    exact bcfsLoopTraced_step_notdir fuel data offset files trace tag hin htag hne
  · intro fopt offset2 h2 hpd
    subst h2
    exact bcfsLoopTraced_step_dir fuel data offset files trace fopt offset2
      hin htag hpd

/-- Witness for the two branches of the amended C5 step law, at a
sector with tag 0 and at a directory sector with an empty block
table. -/
theorem bcfs_walk_step_witness :
    bcfsLoopTraced 2 ⟨0x1008, fun _ => 0⟩ 0 [] [] =
      bcfsLoopTraced 1 ⟨0x1008, fun _ => 0⟩ 0x1000 [] [0x1000] ∧
    bcfsLoopTraced 2 ⟨0x109C, fun i => if i = 0x1000 then 2 else 0⟩ 0 [] [] =
      bcfsLoopTraced 1 ⟨0x109C, fun i => if i = 0x1000 then 2 else 0⟩ 0x1000
        [⟨List.replicate 127 0, []⟩] [0x1000] := by
  constructor
  · have h := (bcfs_walk_step 1 ⟨0x1008, fun _ => 0⟩ 0 [] [] 0
      (by decide) (by decide)).1 (by decide)
    simpa using h
  · have h := (bcfs_walk_step 1 ⟨0x109C, fun i => if i = 0x1000 then 2 else 0⟩
      0 [] [] 2 (by decide) (by decide)).2
      (some ⟨List.replicate 127 0, []⟩) 0x1000 rfl (by decide)
    simpa using h

/-- C6: for a directory entry whose block walk, size read and name read
succeed, a file is emitted exactly when the declared size is at most
the accumulated block data, its data being the first declared-size
bytes of that data; a larger declared size yields no file and no error,
and the accumulated data is a whole number of 0x1000-byte blocks. -/
theorem bcfs_entry_size_clamp (fuel : Nat) (data : ByteSeq)
    (offset : Nat) (fd : List Nat) (off2 : Nat) (fsz : Int)
    (nameBuf : List Nat)
    (hb : bcfsBlockLoop fuel data (offset + 0x94) 0 [] offset =
      BcfsRes.ok (fd, off2))
    (hs : readI32At data (offset + 0x8C) = some fsz)
    (hn : readExactAt data (offset + 4) 127 = some nameBuf) :
    processDirEntry fuel data offset =
      BcfsRes.ok ((if i32AsUsize fsz ≤ fd.length then
        some ⟨nameBuf, fd.take (i32AsUsize fsz)⟩ else none), off2) ∧
    fd.length % 0x1000 = 0 := by
  refine ⟨processDirEntry_eq fuel data offset fd off2 fsz nameBuf hb hs hn, ?_⟩
  have h := bcfsBlockLoop_length_mod fuel data (offset + 0x94) 0 [] offset
    fd off2 hb
  simpa using h

/-- Witness for the C6 entry law at a minimal all-zero directory
entry. -/
theorem bcfs_entry_size_clamp_witness :
    processDirEntry 1 ⟨0x98, fun _ => 0⟩ 0 =
      BcfsRes.ok (some ⟨List.replicate 127 0, []⟩, 0) := by
  have h := bcfs_entry_size_clamp 1 ⟨0x98, fun _ => 0⟩ 0 [] 0 0
    (List.replicate 127 0) (by decide) (by decide) (by decide)
  exact h.1.trans (by decide)

/-! ### `src/legacy/io_reader.rs` — the byte-level `IoReader`

The legacy parsers read from an in-memory byte slice through the
`IoReader` trait.  `read_exact` fails with an I/O error when the source
is too short; the raw `Read::read` used by `read_string` returns as
many bytes as remain. -/

/-- The typed error sum of src/error.rs (the variants the legacy reader
can produce). -/
inductive GpErr where
  | ioError
  | formatError (msg : String)
  | encodingError
  deriving DecidableEq

/-- A byte-slice reader: the data and a cursor position. -/
structure IoR where
  data : List Nat
  pos : Nat
  deriving DecidableEq

/-- `read_exact` of `n` bytes (src/legacy/io_reader.rs:31-35 and the
one-byte reads): I/O error when fewer than `n` bytes remain. -/
def readExactR (r : IoR) (n : Nat) : Except GpErr (List Nat × IoR) :=
  if r.pos + n ≤ r.data.length then
    Except.ok ((r.data.drop r.pos).take n, ⟨r.data, r.pos + n⟩)
  else Except.error GpErr.ioError

/-- `read_byte` (src/legacy/io_reader.rs:19-23). -/
def readByteR (r : IoR) : Except GpErr (Nat × IoR) :=
  match readExactR r 1 with
  | Except.error e => Except.error e
  | Except.ok (bs, r1) => Except.ok (bs.getD 0 0, r1)

/-- A byte reinterpreted `as i8`. -/
def i8OfByte (b : Nat) : Int :=
  if b < 128 then (b : Int) else (b : Int) - 256

/-- `read_signed_byte` (src/legacy/io_reader.rs:25-29). -/
def readSignedByteR (r : IoR) : Except GpErr (Int × IoR) :=
  match readExactR r 1 with
  | Except.error e => Except.error e
  | Except.ok (bs, r1) => Except.ok (i8OfByte (bs.getD 0 0), r1)

/-- `read_int` (src/legacy/io_reader.rs:47-49): 4 little-endian bytes
as an `i32`. -/
def readIntR (r : IoR) : Except GpErr (Int × IoR) :=
  match readExactR r 4 with
  | Except.error e => Except.error e
  | Except.ok (bs, r1) =>
    Except.ok (i32OfU32 (bs.getD 0 0 + 256 * bs.getD 1 0 +
      65536 * bs.getD 2 0 + 16777216 * bs.getD 3 0), r1)

/-- The raw `Read::read` on a byte slice, as called by `read_string`:
yields `min n remaining` bytes and never fails. -/
def readRawR (r : IoR) (n : Nat) : List Nat × IoR :=
  let cnt := min n (r.data.length - r.pos)
  ((r.data.drop r.pos).take cnt, ⟨r.data, r.pos + cnt⟩)

/-- The Unicode code point assigned to a byte by the Windows-1252
decoder; the five undefined bytes become U+FFFD under
`DecoderTrap::Replace`. -/
def win1252CodePoint (b : Nat) : Nat :=
  if b = 0x80 then 0x20AC else
  if b = 0x81 then 0xFFFD else
  if b = 0x82 then 0x201A else
  if b = 0x83 then 0x0192 else
  if b = 0x84 then 0x201E else
  if b = 0x85 then 0x2026 else
  if b = 0x86 then 0x2020 else
  if b = 0x87 then 0x2021 else
  if b = 0x88 then 0x02C6 else
  if b = 0x89 then 0x2030 else
  if b = 0x8A then 0x0160 else
  if b = 0x8B then 0x2039 else
  if b = 0x8C then 0x0152 else
  if b = 0x8D then 0xFFFD else
  if b = 0x8E then 0x017D else
  if b = 0x8F then 0xFFFD else
  if b = 0x90 then 0xFFFD else
  if b = 0x91 then 0x2018 else
  if b = 0x92 then 0x2019 else
  if b = 0x93 then 0x201C else
  if b = 0x94 then 0x201D else
  if b = 0x95 then 0x2022 else
  if b = 0x96 then 0x2013 else
  if b = 0x97 then 0x2014 else
  if b = 0x98 then 0x02DC else
  if b = 0x99 then 0x2122 else
  if b = 0x9A then 0x0161 else
  if b = 0x9B then 0x203A else
  if b = 0x9C then 0x0153 else
  if b = 0x9D then 0xFFFD else
  if b = 0x9E then 0x017E else
  if b = 0x9F then 0x0178 else b

/-- `convert_to_string` (src/legacy/io_reader.rs:119-121), baseline
Windows-1252 with lossy replacement: total, never an error. -/
def convertToString (bs : List Nat) : String :=
  String.mk (bs.map fun b => Char.ofNat (win1252CodePoint b))

/-- `read_string` (src/legacy/io_reader.rs:83-115): `size` bytes are
consumed (when `size > 0`), the optional `length` truncates the decoded
prefix. -/
def readStringR (r : IoR) (size : Nat) (length : Option Nat) :
    Except GpErr (String × IoR) :=
  if size > 65536 then
    Except.error (GpErr.formatError
      ("Requested to read " ++ toString size ++ " bytes string, too much..."))
  else
    let needToRead := match length with
      | none => size
      | some l => if size > 0 then size else l
    if (match length with | some l => decide (l > needToRead) | none => false) then
      Except.error (GpErr.formatError
        ("Requested to return " ++ toString (length.getD 0) ++
          " bytes, but will read only " ++ toString needToRead ++
          " (len > size)"))
    else
      let rr := readRawR r needToRead
      if rr.1.length < needToRead then
        Except.error (GpErr.formatError
          ("Read " ++ toString rr.1.length ++ " bytes, expected " ++
            toString needToRead))
      else
        let truncated := match length with
          | some l => rr.1.take l
          | none => rr.1
        Except.ok (convertToString truncated, rr.2)

/-- `read_byte_sized_string` (src/legacy/io_reader.rs:62-65): one
length byte, then `read_string size (some len)`. -/
def readByteSizedString (size : Nat) (r : IoR) :
    Except GpErr (String × IoR) :=
  match readByteR r with
  | Except.error e => Except.error e
  | Except.ok (len, r1) => readStringR r1 size (some len)

/-! ### `src/legacy/gp_base.rs` — the version dispatcher -/

/-- The `Version` enum (src/legacy/gp_base.rs:6-13). -/
inductive Version where
  | fichierGuitarProV300
  | fichierGuitarProV400
  | fichierGuitarProV406
  | fichierGuitarProL406
  | fichierGuitarProV500
  | fichierGuitarProV510
  deriving DecidableEq

/-- `GPFile::read_version` (src/legacy/gp_base.rs:30-40): a 30-byte
length-prefixed string matched against the six banners; anything else
is `FormatError("Unsupported version: …")`. -/
def readVersion (r : IoR) : Except GpErr (Version × IoR) :=
  match readByteSizedString 30 r with
  | Except.error e => Except.error e
  | Except.ok (s, r1) =>
    if s = "FICHIER GUITAR PRO v3.00" then
      Except.ok (Version.fichierGuitarProV300, r1)
    else if s = "FICHIER GUITAR PRO v4.00" then
      Except.ok (Version.fichierGuitarProV400, r1)
    else if s = "FICHIER GUITAR PRO v4.06" then
      Except.ok (Version.fichierGuitarProV406, r1)
    else if s = "FICHIER GUITAR PRO L4.06" then
      Except.ok (Version.fichierGuitarProL406, r1)
    else if s = "FICHIER GUITAR PRO v5.00" then
      Except.ok (Version.fichierGuitarProV500, r1)
    else if s = "FICHIER GUITAR PRO v5.10" then
      Except.ok (Version.fichierGuitarProV510, r1)
    else
      Except.error (GpErr.formatError ("Unsupported version: " ++ s))

/-- The byte sequence of the v4.06 banner. -/
def banner406 : List Nat :=
  "FICHIER GUITAR PRO v4.06".toList.map Char.toNat

/-- The version actually produced, if any. -/
def versionOf (e : Except GpErr (Version × IoR)) : Option Version :=
  match e with
  | Except.ok (v, _) => some v
  | _ => none

/-- Whether the result is a `FormatError`. -/
def isVersionFormatError (e : Except GpErr (Version × IoR)) : Bool :=
  match e with
  | Except.error (GpErr.formatError _) => true
  | _ => false


/-- C7 counterexample: the spec's example input — length byte 0x1E (30)
followed by the v4.06 banner NUL-padded to 30 bytes — is rejected.
With length byte 30 the decoded string keeps its six NUL characters, so
it matches no banner and `read_version` returns the
`FormatError("Unsupported version: …")`. -/
theorem version_0x1E_padded_rejected :
    versionOf (readVersion ⟨0x1E :: (banner406 ++ List.replicate 6 0), 0⟩) =
      none ∧
    isVersionFormatError
      (readVersion ⟨0x1E :: (banner406 ++ List.replicate 6 0), 0⟩) = true :=
  ⟨rfl, rfl⟩

/-- C7 (amended): the dispatcher reads a 30-byte length-prefixed string
and maps the decoded string to the version tokens — the v4.06 banner to
`FichierGuitarProV406`, any string outside the six banners to
`FormatError("Unsupported version: …")`.  The spec's padded example
carries the true banner length 0x18, not 0x1E, as its length byte. -/
theorem version_dispatch_maps_banner (r r1 : IoR) (s : String)
    (h : readByteSizedString 30 r = Except.ok (s, r1)) :
    (s = "FICHIER GUITAR PRO v4.06" →
      readVersion r = Except.ok (Version.fichierGuitarProV406, r1)) ∧
    (s ∉ ["FICHIER GUITAR PRO v3.00", "FICHIER GUITAR PRO v4.00",
        "FICHIER GUITAR PRO v4.06", "FICHIER GUITAR PRO L4.06",
        "FICHIER GUITAR PRO v5.00", "FICHIER GUITAR PRO v5.10"] →
      readVersion r =
        Except.error (GpErr.formatError ("Unsupported version: " ++ s))) := by
  constructor
  · intro hs
    subst hs
    unfold readVersion
    rw [h]
    simp only []
    rw [if_neg (by decide), if_neg (by decide)]
    simp
  · intro hns
    simp only [List.mem_cons, List.not_mem_nil, or_false, not_or] at hns
    obtain ⟨n1, n2, n3, n4, n5, n6⟩ := hns
    unfold readVersion
    rw [h]
    simp only []
    rw [if_neg n1, if_neg n2, if_neg n3, if_neg n4, if_neg n5, if_neg n6]

/-- Witness for the amended C7 dispatch law: the corrected padded
v4.06 input (length byte 0x18) and an unknown banner. -/
theorem version_dispatch_maps_banner_witness :
    readVersion ⟨0x18 :: (banner406 ++ List.replicate 6 0), 0⟩ =
      Except.ok (Version.fichierGuitarProV406,
        ⟨0x18 :: (banner406 ++ List.replicate 6 0), 31⟩) ∧
    readVersion ⟨0x18 :: ("FICHIER GUITAR PRO v9.99".toList.map Char.toNat ++
        List.replicate 6 0), 0⟩ =
      Except.error (GpErr.formatError
        ("Unsupported version: " ++ "FICHIER GUITAR PRO v9.99")) := by
  constructor
  · exact (version_dispatch_maps_banner
      ⟨0x18 :: (banner406 ++ List.replicate 6 0), 0⟩
      ⟨0x18 :: (banner406 ++ List.replicate 6 0), 31⟩
      "FICHIER GUITAR PRO v4.06" (by rfl)).1 rfl
  · exact (version_dispatch_maps_banner
      ⟨0x18 :: ("FICHIER GUITAR PRO v9.99".toList.map Char.toNat ++
        List.replicate 6 0), 0⟩
      ⟨0x18 :: ("FICHIER GUITAR PRO v9.99".toList.map Char.toNat ++
        List.replicate 6 0), 31⟩
      "FICHIER GUITAR PRO v9.99" (by rfl)).2 (by decide)

/-! ### `src/legacy/gp3_reader.rs` — `read_duration` and `read_channel`

Both functions can abort the process with a `panic!` (or an `expect`),
which is kept distinct from the returned `Result` errors. -/

/-- Outcome of a legacy read that may panic. -/
inductive PRes (α : Type) where
  | ok (a : α)
  | error (e : GpErr)
  | panicked (msg : String)
  deriving DecidableEq

/-- The `DurationValue` enum (src/legacy/song.rs:34-44). -/
inductive DurationValue where
  | quarterTime
  | whole
  | half
  | quarter
  | eigth
  | sixteenth
  | thirtySecond
  | sixtyFourth
  | hundredTwentyEighth
  deriving DecidableEq

/-- `DurationValue::from_i32` (via `enum_from_primitive!`): the
discriminants of src/legacy/song.rs:34-44. -/
def durationValueFromI32 (v : Int) : Option DurationValue :=
  if v = 960 then some DurationValue.quarterTime else
  if v = 1 then some DurationValue.whole else
  if v = 2 then some DurationValue.half else
  if v = 4 then some DurationValue.quarter else
  if v = 8 then some DurationValue.eigth else
  if v = 16 then some DurationValue.sixteenth else
  if v = 32 then some DurationValue.thirtySecond else
  if v = 64 then some DurationValue.sixtyFourth else
  if v = 128 then some DurationValue.hundredTwentyEighth else none

/-- The `Tuplet` struct (src/legacy/song.rs:94-97); its `Default` is
`(1, 1)`. -/
structure Tuplet where
  enters : Nat
  times : Nat
  deriving DecidableEq

/-- The `Duration` struct (src/legacy/song.rs:66-71). -/
structure Duration where
  value : DurationValue
  isDotted : Bool
  isDoubleDotted : Bool
  tuplet : Tuplet
  deriving DecidableEq

/-- The tuplet table of `read_duration` (src/legacy/gp3_reader.rs:
419-429); the wildcard arm of the Rust `match` is a `panic!`, here
`none`. -/
def tupletOfInt (t : Int) : Option Tuplet :=
  if t = 3 then some ⟨3, 2⟩ else
  if t = 5 then some ⟨5, 4⟩ else
  if t = 6 then some ⟨6, 4⟩ else
  if t = 7 then some ⟨7, 4⟩ else
  if t = 9 then some ⟨9, 8⟩ else
  if t = 10 then some ⟨10, 8⟩ else
  if t = 11 then some ⟨11, 8⟩ else
  if t = 12 then some ⟨12, 8⟩ else none

/-- `read_duration` (src/legacy/gp3_reader.rs:412-435).  The byte value
feeds `1i32 << (byte + 2)` — release semantics: the `i8` addition wraps
and the shift amount is masked to 5 bits — and the result goes through
`DurationValue::from_i32(..).expect("Unknown duration")` when the
`Duration` is built, after the tuplet has been read.  A tuplet code
outside the table is `panic!("Unexpeced tuplet number")` (spelled as in
the source). -/
def readDuration (r : IoR) (flags : Nat) : PRes (Duration × IoR) :=
  match readSignedByteR r with
  | Except.error e => PRes.error e
  | Except.ok (b, r1) =>
    let amount := ((b + 2) % 256).toNat % 32
    let value : Int := i32OfU32 (2 ^ amount % 2 ^ 32)
    let isDotted := decide (flags &&& 0x01 > 0)
    if flags &&& 0x20 > 0 then
      match readIntR r1 with
      | Except.error e => PRes.error e
      | Except.ok (t, r2) =>
        match tupletOfInt t with
        | none => PRes.panicked "Unexpeced tuplet number"
        | some tp =>
          match durationValueFromI32 value with
          | none => PRes.panicked "Unknown duration"
          | some dv => PRes.ok (⟨dv, isDotted, false, tp⟩, r2)
    else
      match durationValueFromI32 value with
      | none => PRes.panicked "Unknown duration"
      | some dv => PRes.ok (⟨dv, isDotted, false, ⟨1, 1⟩⟩, r1)

/-- C8 counterexample: beat flag 0x20 with tuplet code 13 makes
`read_duration` panic (with the source's misspelled message), not
return a `FormatError` to the caller. -/
theorem tuplet_13_panics :
    readDuration ⟨[0, 13, 0, 0, 0], 0⟩ 0x20 =
      PRes.panicked "Unexpeced tuplet number" := by
  rfl

/-- C8 (amended): with flag 0x20 set, the 32-bit tuplet code is mapped
through the table 3→(3,2), 5→(5,4), 6→(6,4), 7→(7,4), 9→(9,8),
10→(10,8), 11→(11,8), 12→(12,8); any other code aborts the process
with `panic!("Unexpeced tuplet number")` rather than returning an
error value. -/
theorem tuplet_table_or_panic (r r1 r2 : IoR) (b t : Int) (flags : Nat)
    (dv : DurationValue)
    (hb : readSignedByteR r = Except.ok (b, r1))
    (ht : readIntR r1 = Except.ok (t, r2))
    (hf : flags &&& 0x20 > 0)
    (hdv : durationValueFromI32
      (i32OfU32 (2 ^ (((b + 2) % 256).toNat % 32) % 2 ^ 32)) = some dv) :
    readDuration r flags =
      (match tupletOfInt t with
       | none => PRes.panicked "Unexpeced tuplet number"
       | some tp =>
         PRes.ok (⟨dv, decide (flags &&& 0x01 > 0), false, tp⟩, r2)) := by
  unfold readDuration
  rw [hb]
  simp only [if_pos hf, ht, hdv]

/-- Witness for the amended C8 tuplet law: flag 0x20 with code 5 yields
tuplet (5,4) on a quarter note. -/
theorem tuplet_table_or_panic_witness :
    readDuration ⟨[0, 5, 0, 0, 0], 0⟩ 0x20 =
      PRes.ok (⟨DurationValue.quarter, false, false, ⟨5, 4⟩⟩,
        ⟨[0, 5, 0, 0, 0], 5⟩) := by
  have h := tuplet_table_or_panic ⟨[0, 5, 0, 0, 0], 0⟩
    ⟨[0, 5, 0, 0, 0], 1⟩ ⟨[0, 5, 0, 0, 0], 5⟩ 0 5 0x20
    DurationValue.quarter (by rfl) (by rfl) (by decide) (by decide)
  exact h.trans (by decide)

/-- The `Channel` struct (src/legacy/song.rs:607-617). -/
structure Channel where
  channel : Nat
  effectChannel : Nat
  instrument : Int
  volume : Int
  balance : Int
  chorus : Int
  reverb : Int
  phaser : Int
  tremolo : Int
  deriving DecidableEq

/-- `Channel::is_percussion_channel` (src/legacy/song.rs:622-624):
`channel % 16 == 9`. -/
def isPercussionChannel (c : Channel) : Bool :=
  c.channel % 16 = 9

/-- The in-place fix-ups `read_channel` applies to the referenced
channel (src/legacy/gp3_reader.rs:603-609): clamp a negative
instrument to 0; unless the channel is percussion, install the wire
effect channel (`as u8`). -/
def channelFixup (tc : Channel) (effectChannel : Int) : Channel :=
  let tc1 := if tc.instrument < 0 then { tc with instrument := 0 } else tc
  if isPercussionChannel tc1 then tc1
  else { tc1 with effectChannel := i32AsU8 effectChannel }

/-- `read_channel` (src/legacy/gp3_reader.rs:597-614): two wire
integers, both decremented (wrapping in release); an index outside the
channel bank is `panic!("channel index is …")`, otherwise the bank
entry is fixed up in place and the 0-based index returned. -/
def readChannel (r : IoR) (channels : List Channel) :
    PRes (Nat × List Channel × IoR) :=
  match readIntR r with
  | Except.error e => PRes.error e
  | Except.ok (v, r1) =>
    let index := i32AsUsize (wrapI32 (v - 1))
    match readIntR r1 with
    | Except.error e => PRes.error e
    | Except.ok (ev, r2) =>
      let effectChannel := wrapI32 (ev - 1)
      match channels[index]? with
      | some tc =>
        PRes.ok (index, channels.set index (channelFixup tc effectChannel), r2)
      | none => PRes.panicked ("channel index is " ++ toString index)

/-- An `i32` produced by `read_int` lies in the `i32` range, provided
the source holds bytes. -/
theorem readIntR_range (r r1 : IoR) (v : Int)
    (hbytes : ∀ b ∈ r.data, b < 256)
    (h : readIntR r = Except.ok (v, r1)) :
    -(2 ^ 31) ≤ v ∧ v < 2 ^ 31 := by
  unfold readIntR readExactR at h
  by_cases hle : r.pos + 4 ≤ r.data.length
  · rw [if_pos hle] at h
    simp only [Except.ok.injEq, Prod.mk.injEq] at h
    have hbs : ∀ i, ((r.data.drop r.pos).take 4).getD i 0 < 256 := by
      intro i
      by_cases hi : i < ((r.data.drop r.pos).take 4).length
      · rw [List.getD_eq_getElem _ _ hi]
        exact hbytes _ (List.drop_subset _ _ (List.take_subset _ _
          (List.getElem_mem hi)))
      · rw [List.getD_eq_default _ _ (by omega)]
        norm_num
    have h0 := hbs 0
    have h1 := hbs 1
    have h2 := hbs 2
    have h3 := hbs 3
    rw [← h.1]
    unfold i32OfU32
    split <;> omega
  · rw [if_neg hle] at h
    exact absurd h (by simp)

/-- C10: in `read_channel`, a wire channel value outside `1..=64`
(for a 64-entry bank) decrements to an index outside the bank and the
function panics with `"channel index is …"`; a wire value inside
`1..=64` passes the bounds check, the referenced channel is fixed up in
place, and the 0-based index `wire − 1` is returned with no panic. -/
theorem read_channel_panics_outside_bank (r r1 r2 : IoR) (v ev : Int)
    (channels : List Channel) (tc : Channel)
    (h1 : readIntR r = Except.ok (v, r1))
    (h2 : readIntR r1 = Except.ok (ev, r2))
    (hlen : channels.length = 64)
    (hbytes : ∀ b ∈ r.data, b < 256) :
    (¬ (1 ≤ v ∧ v ≤ 64) → readChannel r channels =
      PRes.panicked ("channel index is " ++
        toString (i32AsUsize (wrapI32 (v - 1))))) ∧
    (1 ≤ v → v ≤ 64 → channels[(v - 1).toNat]? = some tc →
      readChannel r channels = PRes.ok ((v - 1).toNat,
        channels.set (v - 1).toNat (channelFixup tc (wrapI32 (ev - 1))),
        r2)) := by
  have hrange := readIntR_range r r1 v hbytes h1
  constructor
  · intro hout
    have hidx : 64 ≤ i32AsUsize (wrapI32 (v - 1)) := by
      unfold i32AsUsize wrapI32
      omega
    have hnone : channels[i32AsUsize (wrapI32 (v - 1))]? = none := by
      rw [List.getElem?_eq_none_iff]
      omega
    unfold readChannel
    rw [h1]
    simp only []
    rw [h2]
    simp only [hnone]
  · intro hg hl htc
    have hidx : i32AsUsize (wrapI32 (v - 1)) = (v - 1).toNat := by
      unfold i32AsUsize wrapI32
      omega
    unfold readChannel
    rw [h1]
    simp only []
    rw [h2]
    simp only [hidx, htc]

/-- Witness for the C10 bounds law: wire value 0 panics; wire value 1
returns index 0 with the bank entry fixed up. -/
theorem read_channel_panics_outside_bank_witness :
    readChannel ⟨[0, 0, 0, 0, 0, 0, 0, 0], 0⟩
      (List.replicate 64 ⟨9, 0, 0, 0, 0, 0, 0, 0, 0⟩) =
      PRes.panicked ("channel index is " ++
        toString (i32AsUsize (wrapI32 ((0 : Int) - 1)))) ∧
    readChannel ⟨[1, 0, 0, 0, 0, 0, 0, 0], 0⟩
      (List.replicate 64 ⟨9, 0, 0, 0, 0, 0, 0, 0, 0⟩) =
      PRes.ok (0, (List.replicate 64 (⟨9, 0, 0, 0, 0, 0, 0, 0, 0⟩ : Channel)).set 0
        (channelFixup ⟨9, 0, 0, 0, 0, 0, 0, 0, 0⟩ (wrapI32 ((0 : Int) - 1))),
        ⟨[1, 0, 0, 0, 0, 0, 0, 0], 8⟩) := by
  constructor
  · exact (read_channel_panics_outside_bank
      ⟨[0, 0, 0, 0, 0, 0, 0, 0], 0⟩ ⟨[0, 0, 0, 0, 0, 0, 0, 0], 4⟩
      ⟨[0, 0, 0, 0, 0, 0, 0, 0], 8⟩ 0 0
      (List.replicate 64 ⟨9, 0, 0, 0, 0, 0, 0, 0, 0⟩)
      ⟨9, 0, 0, 0, 0, 0, 0, 0, 0⟩
      (by rfl) (by rfl) (by decide) (by decide)).1 (by decide)
  · exact (read_channel_panics_outside_bank
      ⟨[1, 0, 0, 0, 0, 0, 0, 0], 0⟩ ⟨[1, 0, 0, 0, 0, 0, 0, 0], 4⟩
      ⟨[1, 0, 0, 0, 0, 0, 0, 0], 8⟩ 1 0
      (List.replicate 64 ⟨9, 0, 0, 0, 0, 0, 0, 0, 0⟩)
      ⟨9, 0, 0, 0, 0, 0, 0, 0, 0⟩
      (by rfl) (by rfl) (by decide) (by decide)).2 (by norm_num)
      (by norm_num) (by decide)
